import Mathlib

/-
Verification of the OnlyLocals host-verification and model-resolution pipeline.

The TypeScript sources are shallowly embedded: each embedded definition keeps
the name and the control flow of its source function.  Host effects (spawning
a shell command) are modelled by an explicit environment `Env : String →
RunResult` mapping the exact command string to the observed outcome, and the
module-level mutable caches become explicit state records threaded through the
functions.  JavaScript-specific semantics (string truthiness, `parseInt`
returning NaN, `split`, `trim`, `includes`, `||` defaulting) are modelled by
dedicated `js*` helpers, each faithful to the ECMAScript behaviour actually
exercised by the code (ASCII whitespace suffices for `trim` here).
-/

/-! ### JavaScript string primitives, on explicit character lists -/

/-- ASCII whitespace as recognised by the inputs this program handles
(JS `trim` also strips unicode spaces, which never occur here). -/
def isWsChar (c : Char) : Bool :=
  c = ' ' || c = '\t' || c = '\n' || c = '\r'

/-- Strip leading and trailing whitespace from a character list. -/
def trimL (l : List Char) : List Char :=
  ((l.dropWhile isWsChar).reverse.dropWhile isWsChar).reverse

/-- JS `String.prototype.trim`. -/
def jsTrim (s : String) : String :=
  ⟨trimL s.toList⟩

/-- JS `String.prototype.split(sep)` for a one-character separator, on lists.
Splitting never yields the empty list: splitting `""` yields `[""]`. -/
def splitOnCharL (sep : Char) : List Char → List (List Char)
  | [] => [[]]
  | c :: rest =>
    let r := splitOnCharL sep rest
    if c = sep then
      [] :: r
    else
      match r with
      | [] => [[c]]
      | h :: t => (c :: h) :: t

/-- JS `s.split(sep)` for a one-character separator. -/
def jsSplit (s : String) (sep : Char) : List String :=
  (splitOnCharL sep s.toList).map (fun l => ⟨l⟩)

/-- Does `pat` occur at the head of `l`? -/
def startsWithL : List Char → List Char → Bool
  | [], _ => true
  | _ :: _, [] => false
  | p :: ps, c :: cs => p = c && startsWithL ps cs

/-- Does `pat` occur anywhere in `l`? -/
def occursInL (pat : List Char) : List Char → Bool
  | [] => startsWithL pat []
  | c :: cs => startsWithL pat (c :: cs) || occursInL pat cs

/-- JS `s.includes(pat)`. -/
def jsIncludes (s pat : String) : Bool :=
  occursInL pat.toList s.toList

/-- Value of a leading run of decimal digits; `none` when there is none.
Used to model `parseInt`. -/
def parseDigitsL (l : List Char) : Option Nat :=
  let ds := l.takeWhile Char.isDigit
  if ds.isEmpty then none
  else some (ds.foldl (fun a c => a * 10 + (c.toNat - 48)) 0)

/-- JS `parseInt(s, 10)`: skip leading whitespace, optional sign, then the
longest leading run of decimal digits; `none` models `NaN`. -/
def jsParseInt (s : String) : Option Int :=
  match s.toList.dropWhile isWsChar with
  | '-' :: rest => (parseDigitsL rest).map (fun n => -(n : Int))
  | '+' :: rest => (parseDigitsL rest).map (fun n => (n : Int))
  | l => (parseDigitsL l).map (fun n => (n : Int))

/-- JS `a || b` on strings: the empty string is falsy. -/
def jsOrStr (a b : String) : String :=
  if a = "" then b else a

/-- JS `a || b` where `a` is a possibly-undefined number (`none` models
`undefined`): `undefined` and `0` are falsy. -/
def jsOrInt (a : Option Int) (b : Int) : Int :=
  match a with
  | none => b
  | some x => if x = 0 then b else x

/-- Replace the first occurrence of `pat` (nonempty here) in a character
list, as JS `s.replace(pat, repl)` does for a string pattern. -/
def replaceFirstL (pat repl : List Char) : List Char → List Char
  | [] => []
  | x :: xs =>
    if startsWithL pat (x :: xs) then
      repl ++ (x :: xs).drop pat.length
    else
      x :: replaceFirstL pat repl xs

/-- JS `s.replace(pat, repl)` with a plain-string pattern: first occurrence
only. -/
def jsReplaceFirst (s pat repl : String) : String :=
  ⟨replaceFirstL pat.toList repl.toList s.toList⟩

/-- Replace every occurrence of the character `sep`, as the global regex
replace `s.replace(/x/g, repl)` does for a one-character pattern. -/
def replaceAllCharL (sep : Char) (repl : List Char) : List Char → List Char
  | [] => []
  | c :: cs =>
    if c = sep then repl ++ replaceAllCharL sep repl cs
    else c :: replaceAllCharL sep repl cs

/-- JS `s.replace(/sep/g, repl)` for a one-character pattern. -/
def jsReplaceAllChar (s : String) (sep : Char) (repl : String) : String :=
  ⟨replaceAllCharL sep repl.toList s.toList⟩

/-! ### The Runner (src/codebase-indexing/src/runner.ts)

`runCommand` returns `{ stdout, stderr, exitCode }`.  The host either runs the
command to exit (with captured output and a numeric exit status) or fails to
invoke the shell at all, in which case the host API throws an error whose
`code` property is the errno STRING (e.g. `"ENOENT"`); `SpawnOutcome` models
that dichotomy, carrying the errno of a spawn failure.  JS errors thrown by
the host APIs are modelled by `JsError`: a message plus the optional fields
the two hosts attach — Bun's `ShellError.exitCode` (a number), and Node's
`error.code`, which is the numeric exit status for a command that exited and
the errno string for a spawn failure (`none` models an absent / `undefined`
field).  Because `error.code || 1` can therefore produce a string, the
record the Runner returns holds a number-or-string exit code (`JsCodeVal`);
the TS annotation says `number`, but JS does not enforce it. -/

structure RunResult where
  stdout : String
  stderr : String
  exitCode : Int
deriving DecidableEq, Repr

/-- A JS value that can appear in an error's `code` / `exitCode` property
and hence in the returned record: a number or an errno string. -/
inductive JsCodeVal where
  | num (n : Int)
  | str (s : String)
deriving DecidableEq, Repr

/-- JS truthiness of such a value: `0` and `""` are falsy. -/
def jsCodeTruthy : JsCodeVal → Bool
  | .num n => n != 0
  | .str s => s != ""

/-- JS `a || b` where `a` is a possibly-undefined number-or-string. -/
def jsOrCode (a : Option JsCodeVal) (b : JsCodeVal) : JsCodeVal :=
  match a with
  | none => b
  | some v => if jsCodeTruthy v then v else b

/-- What the Runner hands back: stdout, stderr, and the exit code as the JS
value actually produced (numeric for a command that exited; possibly an
errno string on Node's caught spawn failure). -/
structure JsRunResult where
  stdout : String
  stderr : String
  exitCode : JsCodeVal
deriving DecidableEq, Repr

inductive SpawnOutcome where
  | exited (stdout stderr : String) (exitCode : Int)
  | spawnFailure (message : String) (errno : String)
deriving DecidableEq, Repr

structure JsError where
  message : String
  stdoutField : Option String
  stderrField : Option String
  exitCodeField : Option Int
  codeField : Option JsCodeVal
deriving DecidableEq, Repr

/-- Behaviour of `Bun.$...`.quiet()`: resolves with the result when the
command exits with status 0; throws a `ShellError` (carrying stdout, stderr
and the numeric `exitCode`) on a non-zero exit; throws a plain error
(message only, no `exitCode` property) when the shell cannot be spawned. -/
def bunShell : SpawnOutcome → Except JsError JsRunResult
  | .exited out err code =>
    if code = 0 then .ok ⟨out, err, .num code⟩
    else .error ⟨"Failed with exit code " ++ toString code, some out, some err, some code, none⟩
  | .spawnFailure msg _ => .error ⟨msg, none, none, none, none⟩

/-- `runCommandBun` from runner.ts: wraps the Bun shell call in
try/catch and on a caught error rebuilds the result record from the error
object via `error.stdout?.toString() || ""`,
`error.stderr?.toString() || error.message` and `error.exitCode || 1`. -/
def runCommandBun (outcome : SpawnOutcome) : Except JsError JsRunResult :=
  match bunShell outcome with
  | .ok result => .ok ⟨result.stdout, result.stderr, result.exitCode⟩
  | .error e =>
    .ok ⟨e.stdoutField.getD "", jsOrStr (e.stderrField.getD "") e.message,
      .num (jsOrInt e.exitCodeField 1)⟩

/-- Behaviour of Node's promisified `exec`: resolves with `{stdout, stderr}`
only when the command exits with status 0; rejects with an error carrying
stdout, stderr and `code` = the numeric exit status on a non-zero exit;
rejects on a spawn failure with the spawn error, whose `code` is the errno
string (e.g. `"ENOENT"`) and whose attached stdout/stderr are empty. -/
def nodeExec : SpawnOutcome → Except JsError (String × String)
  | .exited out err code =>
    if code = 0 then .ok (out, err)
    else .error ⟨"Command failed", some out, some err, none, some (.num code)⟩
  | .spawnFailure msg errno => .error ⟨msg, some "", some "", none, some (.str errno)⟩

/-- `runCommandNode` from runner.ts: `execAsync` in try/catch; the
success path returns exit code 0, the catch path rebuilds the record via
`error.stdout?.toString() || ""`, `error.stderr?.toString() || error.message`
and `error.code || 1` — and since a spawn error's `code` is a truthy errno
string, that string lands in the record's exit code. -/
def runCommandNode (outcome : SpawnOutcome) : Except JsError JsRunResult :=
  match nodeExec outcome with
  | .ok (out, err) => .ok ⟨out, err, .num 0⟩
  | .error e =>
    .ok ⟨e.stdoutField.getD "", jsOrStr (e.stderrField.getD "") e.message,
      jsOrCode e.codeField (.num 1)⟩

/-- Behaviour of `Deno.Command(...).output()`: resolves with the captured
output and exit code for any command that runs to exit, rejects only when the
shell cannot be spawned. -/
def denoCommandOutput : SpawnOutcome → Except JsError JsRunResult
  | .exited out err code => .ok ⟨out, err, .num code⟩
  | .spawnFailure msg _ => .error ⟨msg, none, none, none, none⟩

/-- `runCommandDeno` from runner.ts: no try/catch around the Deno call, so a
rejection propagates to the caller. -/
def runCommandDeno (outcome : SpawnOutcome) : Except JsError JsRunResult :=
  denoCommandOutput outcome

/-- Claim C1: for every command whose shell is successfully invoked and which
runs to exit (any exit status), `runCommand` (in its Bun and Node
implementations, the two that catch) returns `{ stdout, stderr, exitCode }`
as data and never raises: the exit code (as a number) and the stdout are
returned exactly, and nonempty stderr content is returned exactly. -/
theorem runCommand_exited_returns_data (out err : String) (code : Int) :
    (∃ r, runCommandBun (.exited out err code) = .ok r ∧
      r.stdout = out ∧ r.exitCode = .num code ∧ (err ≠ "" → r.stderr = err)) ∧
    (∃ r, runCommandNode (.exited out err code) = .ok r ∧
      r.stdout = out ∧ r.exitCode = .num code ∧ (err ≠ "" → r.stderr = err)) := by
  constructor
  · by_cases h : code = 0
    · subst h
      exact ⟨⟨out, err, .num 0⟩, by simp [runCommandBun, bunShell], rfl, rfl, fun _ => rfl⟩
    · refine ⟨⟨out, jsOrStr err ("Failed with exit code " ++ toString code), .num code⟩,
        ?_, rfl, rfl, ?_⟩
      · simp [runCommandBun, bunShell, h, jsOrInt]
      · intro he
        simp [jsOrStr, he]
  · by_cases h : code = 0
    · subst h
      exact ⟨⟨out, err, .num 0⟩, by simp [runCommandNode, nodeExec], rfl, rfl, fun _ => rfl⟩
    · refine ⟨⟨out, jsOrStr err "Command failed", .num code⟩, ?_, rfl, rfl, ?_⟩
      · simp [runCommandNode, nodeExec, h, jsOrCode, jsCodeTruthy]
      · intro he
        simp [jsOrStr, he]

/-- Witness for C1 at a concrete non-zero exit with nonempty stderr. -/
theorem runCommand_exited_returns_data_witness :
    (∃ r, runCommandBun (.exited "out" "err" 2) = .ok r ∧
      r.stdout = "out" ∧ r.exitCode = .num 2 ∧ r.stderr = "err") ∧
    (∃ r, runCommandNode (.exited "out" "err" 2) = .ok r ∧
      r.stdout = "out" ∧ r.exitCode = .num 2 ∧ r.stderr = "err") := by
  obtain ⟨⟨r₁, h₁, h₂, h₃, h₄⟩, ⟨r₂, g₁, g₂, g₃, g₄⟩⟩ :=
    runCommand_exited_returns_data "out" "err" 2
  exact ⟨⟨r₁, h₁, h₂, h₃, h₄ (by decide)⟩, ⟨r₂, g₁, g₂, g₃, g₄ (by decide)⟩⟩

/-- Counterexample to claim C2 as stated: a spawn failure does NOT propagate
out of the Bun or Node implementation of `runCommand` as a thrown error; the
catch-all converts it into an ordinary result record — Bun with exit code 1
(its error has no `exitCode` property), Node with the truthy errno string
`"ENOENT"` as the exit code (`error.code || 1`), the failure message as
stderr in both. -/
theorem runCommand_spawnFailure_returned_as_data :
    runCommandBun (.spawnFailure "spawn sh ENOENT" "ENOENT") =
      .ok ⟨"", "spawn sh ENOENT", .num 1⟩ ∧
    runCommandNode (.spawnFailure "spawn sh ENOENT" "ENOENT") =
      .ok ⟨"", "spawn sh ENOENT", .str "ENOENT"⟩ ∧
    (∀ e, runCommandBun (.spawnFailure "spawn sh ENOENT" "ENOENT") ≠ .error e) ∧
    (∀ e, runCommandNode (.spawnFailure "spawn sh ENOENT" "ENOENT") ≠ .error e) := by
  refine ⟨?_, ?_, ?_, ?_⟩
  · simp [runCommandBun, bunShell, jsOrStr, jsOrInt]
  · simp [runCommandNode, nodeExec, jsOrStr, jsOrCode, jsCodeTruthy]
  · intro e h
    simp [runCommandBun, bunShell] at h
  · intro e h
    simp [runCommandNode, nodeExec] at h

/-- Claim C2 amended: in the Bun and Node implementations a failure to invoke
the shell is caught and returned as a result record, not rethrown — Bun with
exit code 1 and Node with the errno string as the exit code, the failure
message as stderr in both; only the Deno implementation lets it propagate as
a thrown error. -/
theorem runCommand_spawnFailure_amended (msg errno : String) (h : errno ≠ "") :
    runCommandBun (.spawnFailure msg errno) = .ok ⟨"", msg, .num 1⟩ ∧
    runCommandNode (.spawnFailure msg errno) = .ok ⟨"", msg, .str errno⟩ ∧
    runCommandDeno (.spawnFailure msg errno) = .error ⟨msg, none, none, none, none⟩ := by
  refine ⟨?_, ?_, rfl⟩
  · simp [runCommandBun, bunShell, jsOrStr, jsOrInt]
  · simp [runCommandNode, nodeExec, jsOrStr, jsOrCode, jsCodeTruthy, h]

/-- Witness for the amended C2 at the concrete `sh`-missing spawn failure. -/
theorem runCommand_spawnFailure_amended_witness :
    runCommandBun (.spawnFailure "spawn sh ENOENT" "ENOENT") =
      .ok ⟨"", "spawn sh ENOENT", .num 1⟩ ∧
    runCommandNode (.spawnFailure "spawn sh ENOENT" "ENOENT") =
      .ok ⟨"", "spawn sh ENOENT", .str "ENOENT"⟩ ∧
    runCommandDeno (.spawnFailure "spawn sh ENOENT" "ENOENT") =
      .error ⟨"spawn sh ENOENT", none, none, none, none⟩ :=
  runCommand_spawnFailure_amended "spawn sh ENOENT" "ENOENT" (by decide)

/-! ### Decidable equality for `Except`, needed to evaluate concrete runs -/

instance instDecEqExceptStr {ε α : Type} [DecidableEq ε] [DecidableEq α] :
    DecidableEq (Except ε α)
  | .ok a, .ok b =>
    if h : a = b then .isTrue (by rw [h]) else .isFalse (by intro he; cases he; exact h rfl)
  | .ok _, .error _ => .isFalse (by intro he; cases he)
  | .error _, .ok _ => .isFalse (by intro he; cases he)
  | .error a, .error b =>
    if h : a = b then .isTrue (by rw [h]) else .isFalse (by intro he; cases he; exact h rfl)

/-! ### The cache / snapshot resolver (src/unnamed/part_004, hfCache.ts)

The module has two module-level mutable variables, `hfCacheDir` (a nullable
string) and `modelPaths` (a JS `Map`); `ResolverState` makes them explicit.
The host is an environment `Env` mapping each exact shell command string to
its observed `RunResult`; each embedded function also returns the number of
`runCommand` invocations it performed, so that memoization claims can be
stated.  A JS `throw` is an `Except.error` carrying the message. -/

def Env : Type := String → RunResult

structure ResolverState where
  hfCacheDir : Option String
  modelPaths : List (String × String)
deriving DecidableEq, Repr

def initialResolverState : ResolverState := ⟨none, []⟩

/-- JS truthiness of the nullable string `hfCacheDir`: `null` and the empty
string are both falsy. -/
def jsTruthyStr : Option String → Bool
  | none => false
  | some s => s != ""

/-- JS `Map.prototype.get` / `has` over an insertion-ordered list. -/
def mapGet : List (String × String) → String → Option String
  | [], _ => none
  | p :: rest, k => if p.1 = k then some p.2 else mapGet rest k

/-- JS `Map.prototype.set`: update in place when the key exists, append
otherwise. -/
def mapSet : List (String × String) → String → String → List (String × String)
  | [], k, v => [(k, v)]
  | p :: rest, k, v => if p.1 = k then (k, v) :: rest else p :: mapSet rest k v

theorem mapGet_mapSet_self (m : List (String × String)) (k v : String) :
    mapGet (mapSet m k v) k = some v := by
  induction m with
  | nil => simp [mapSet, mapGet]
  | cons p rest ih =>
    by_cases h : p.1 = k
    · simp [mapSet, h, mapGet]
    · simp [mapSet, h, mapGet, ih]

/-- `lines.find(line => line.includes('HF_HUB_CACHE:'))` over
`stdout.split('\n')`. -/
def findCacheLine (stdout : String) : Option String :=
  (jsSplit stdout '\n').find? (fun line => jsIncludes line "HF_HUB_CACHE:")

/-- `getHfCacheDir` from hfCache.ts.  Returns (result, new state, number of
`runCommand` invocations).  The memo guard is the JS-truthiness test
`if (hfCacheDir)`. -/
def getHfCacheDir (run : Env) (s : ResolverState) :
    Except String String × ResolverState × Nat :=
  if jsTruthyStr s.hfCacheDir then
    (.ok (s.hfCacheDir.getD ""), s, 0)
  else
    let result := run "hf env"
    if result.exitCode ≠ 0 then
      (.error "Failed to get HF environment info", s, 1)
    else
      match findCacheLine result.stdout with
      | none => (.error "Could not find HF_HUB_CACHE in hf env output", s, 1)
      | some cacheLine =>
        let v := jsTrim ((jsSplit cacheLine ':').getD 1 "")
        (.ok v, { s with hfCacheDir := some v }, 1)

/-- The exact shell probe `[ -d ... ] && echo "exists"` for the model path. -/
def dirCheckCmd (modelPath : String) : String :=
  "[ -d \"" ++ modelPath ++ "\" ] && echo \"exists\""

/-- The exact snapshot enumeration command. -/
def findSnapshotCmd (modelPath : String) : String :=
  "find \"" ++ modelPath ++ "/snapshots\" -maxdepth 1 -mindepth 1 -type d | head -n 1"

/-- `getModelPath` from hfCache.ts. -/
def getModelPath (run : Env) (modelName : String) (s : ResolverState) :
    Except String String × ResolverState × Nat :=
  match mapGet s.modelPaths modelName with
  | some v => (.ok v, s, 0)
  | none =>
    match getHfCacheDir run s with
    | (.error e, s', n) => (.error e, s', n)
    | (.ok hfCache, s', n) =>
      let modelNameClean := jsReplaceFirst modelName "model/" ""
      let modelPath := hfCache ++ "/models--" ++ jsReplaceAllChar modelNameClean '/' "--"
      let dirCheck := run (dirCheckCmd modelPath)
      if dirCheck.exitCode ≠ 0 ∨ ¬ jsIncludes dirCheck.stdout "exists" then
        (.error ("Model not found at " ++ modelPath), s', n + 1)
      else
        (.ok modelPath,
          { s' with modelPaths := mapSet s'.modelPaths modelName modelPath }, n + 1)

/-- `getModelSnapshot` from hfCache.ts. -/
def getModelSnapshot (run : Env) (modelName : String) (s : ResolverState) :
    Except String String × ResolverState × Nat :=
  let cacheKey := modelName ++ ":snapshot"
  match mapGet s.modelPaths cacheKey with
  | some v => (.ok v, s, 0)
  | none =>
    match getModelPath run modelName s with
    | (.error e, s', n) => (.error e, s', n)
    | (.ok modelPath, s', n) =>
      let snapshotResult := run (findSnapshotCmd modelPath)
      if snapshotResult.exitCode ≠ 0 ∨ jsTrim snapshotResult.stdout = "" then
        (.error ("No snapshot found in " ++ modelPath ++ "/snapshots"), s', n + 1)
      else
        let snapshotDir := jsTrim snapshotResult.stdout
        (.ok snapshotDir,
          { s' with modelPaths := mapSet s'.modelPaths cacheKey snapshotDir }, n + 1)

/-! ### Claim C3: memoization of the cache root -/

/-- An `hf env` whose HF_HUB_CACHE value is empty. -/
def runC3 : Env := fun c =>
  if c = "hf env" then ⟨"HF_HUB_CACHE:\n", "", 0⟩ else ⟨"", "", 1⟩

/-- Counterexample to claim C3 as stated: when the resolved path is the empty
string, the falsy-string memo guard `if (hfCacheDir)` fails and the second
call to `getHfCacheDir` invokes `hf env` again — two invocations across the
two calls, not at most one (both calls do return the identical path). -/
theorem getHfCacheDir_empty_path_requeries :
    (getHfCacheDir runC3 initialResolverState).2.2 = 1 ∧
    (getHfCacheDir runC3 (getHfCacheDir runC3 initialResolverState).2.1).2.2 = 1 ∧
    (getHfCacheDir runC3 initialResolverState).1 = .ok "" ∧
    (getHfCacheDir runC3 (getHfCacheDir runC3 initialResolverState).2.1).1 = .ok "" ∧
    ¬ ((getHfCacheDir runC3 initialResolverState).2.2 +
        (getHfCacheDir runC3 (getHfCacheDir runC3 initialResolverState).2.1).2.2 ≤ 1) := by
  decide

/-- A second call hits the memo whenever the stored path is nonempty. -/
theorem getHfCacheDir_hit (run : Env) (s : ResolverState) (v : String)
    (hs : s.hfCacheDir = some v) (hv : v ≠ "") :
    getHfCacheDir run s = (.ok v, s, 0) := by
  unfold getHfCacheDir
  have ht : jsTruthyStr s.hfCacheDir = true := by
    rw [hs]; simpa [jsTruthyStr] using hv
  rw [ht]
  simp [hs]

/-- A fresh, successful resolution performs exactly one `hf env` invocation
and stores the returned value. -/
theorem getHfCacheDir_fresh_ok (run : Env) (s : ResolverState) (v : String)
    (hs : jsTruthyStr s.hfCacheDir = false)
    (h : (getHfCacheDir run s).1 = .ok v) :
    getHfCacheDir run s = (.ok v, { s with hfCacheDir := some v }, 1) := by
  unfold getHfCacheDir at h ⊢
  rw [hs] at h ⊢
  simp only [Bool.false_eq_true, if_false] at h ⊢
  split at h
  next hne => simp at h
  next hne =>
    split at h
    next hf => simp at h
    next cacheLine hf =>
      simp only [Except.ok.injEq] at h
      subst h
      rw [if_neg hne]

/-- Claim C3 amended: resolving the cache root twice within one process
invokes `hf env` at most once PROVIDED the first resolution succeeds with a
nonempty path (an empty path fails the truthy memo guard and is re-queried);
both calls return the identical path. -/
theorem getHfCacheDir_memoized_nonempty (run : Env) (v : String)
    (h : (getHfCacheDir run initialResolverState).1 = .ok v) (hv : v ≠ "") :
    (getHfCacheDir run (getHfCacheDir run initialResolverState).2.1).1 = .ok v ∧
    (getHfCacheDir run initialResolverState).2.2 +
      (getHfCacheDir run (getHfCacheDir run initialResolverState).2.1).2.2 = 1 := by
  have h1 := getHfCacheDir_fresh_ok run initialResolverState v (by rfl) h
  rw [h1]
  have h2 := getHfCacheDir_hit run { initialResolverState with hfCacheDir := some v } v rfl hv
  rw [h2]
  exact ⟨rfl, rfl⟩

/-- A well-formed `hf env` output with a nonempty cache path. -/
def runC3w : Env := fun c =>
  if c = "hf env" then ⟨"HF_HUB_CACHE: /tmp/hf\n", "", 0⟩ else ⟨"", "", 1⟩

/-- Witness for the amended C3 at a concrete environment. -/
theorem getHfCacheDir_memoized_nonempty_witness :
    (getHfCacheDir runC3w (getHfCacheDir runC3w initialResolverState).2.1).1 = .ok "/tmp/hf" ∧
    (getHfCacheDir runC3w initialResolverState).2.2 +
      (getHfCacheDir runC3w (getHfCacheDir runC3w initialResolverState).2.1).2.2 = 1 :=
  getHfCacheDir_memoized_nonempty runC3w "/tmp/hf" (by decide) (by decide)

/-! ### Claim C4: memoization of the snapshot directory -/

/-- A successful `getModelSnapshot` leaves the snapshot path memoized under
the key `modelName ++ ":snapshot"`. -/
theorem getModelSnapshot_sets_memo (run : Env) (modelName : String)
    (s₀ s₁ : ResolverState) (p : String) (n : Nat)
    (h : getModelSnapshot run modelName s₀ = (.ok p, s₁, n)) :
    mapGet s₁.modelPaths (modelName ++ ":snapshot") = some p := by
  simp only [getModelSnapshot] at h
  split at h
  next v hm =>
    injection h with h1 h2
    injection h2 with h3 h4
    subst h3
    rw [hm]
    exact congrArg some (Except.ok.inj h1)
  next hm =>
    split at h
    next e s' n' hmp =>
      injection h with h1 h2
      exact Except.noConfusion h1
    next modelPath s' n' hmp =>
      split at h
      next hfail =>
        injection h with h1 h2
        exact Except.noConfusion h1
      next hok =>
        injection h with h1 h2
        injection h2 with h3 h4
        subst h3
        rw [mapGet_mapSet_self]
        exact congrArg some (Except.ok.inj h1)

/-- Claim C4: once `getModelSnapshot` has returned a path for a reference,
calling it again with the same reference returns the very same path, leaves
the state unchanged and performs zero `runCommand` invocations (no filesystem
probe). -/
theorem getModelSnapshot_idempotent (run : Env) (modelName : String)
    (s₀ s₁ : ResolverState) (p : String) (n : Nat)
    (h : getModelSnapshot run modelName s₀ = (.ok p, s₁, n)) :
    getModelSnapshot run modelName s₁ = (.ok p, s₁, 0) := by
  have hm := getModelSnapshot_sets_memo run modelName s₀ s₁ p n h
  simp only [getModelSnapshot, hm]

/-- A host on which model `m` resolves: valid `hf env` output, an existing
model directory and one snapshot. -/
def runC4w : Env := fun c =>
  if c = "hf env" then ⟨"HF_HUB_CACHE: /hf\n", "", 0⟩
  else if c = dirCheckCmd "/hf/models--m" then ⟨"exists\n", "", 0⟩
  else if c = findSnapshotCmd "/hf/models--m" then ⟨"/hf/models--m/snapshots/s1\n", "", 0⟩
  else ⟨"", "", 1⟩

/-- Witness for C4: after a concrete successful resolution (3 commands), the
second resolution returns the identical path with 0 commands. -/
theorem getModelSnapshot_idempotent_witness :
    getModelSnapshot runC4w "m"
        ⟨some "/hf", [("m", "/hf/models--m"), ("m:snapshot", "/hf/models--m/snapshots/s1")]⟩ =
      (.ok "/hf/models--m/snapshots/s1",
        ⟨some "/hf", [("m", "/hf/models--m"), ("m:snapshot", "/hf/models--m/snapshots/s1")]⟩, 0) :=
  getModelSnapshot_idempotent runC4w "m" initialResolverState
    ⟨some "/hf", [("m", "/hf/models--m"), ("m:snapshot", "/hf/models--m/snapshots/s1")]⟩
    "/hf/models--m/snapshots/s1" 3 (by decide)

/-! ### Claim C7: parsing the HF_HUB_CACHE line -/

/-- Modelled from the spec: "extract the value after the first colon,
trimmed" — the ENTIRE remainder of the line after its first colon, trimmed. -/
def specValueAfterFirstColon (line : String) : String :=
  jsTrim ⟨(line.toList.dropWhile (fun c => c != ':')).drop 1⟩

/-- Splitting a separator-free list yields the singleton. -/
theorem splitOnCharL_not_mem (sep : Char) (l : List Char) (h : sep ∉ l) :
    splitOnCharL sep l = [l] := by
  induction l with
  | nil => rfl
  | cons c cs ih =>
    have hc : ¬ c = sep := fun he => h (he ▸ List.mem_cons_self c cs)
    have hcs : sep ∉ cs := fun hm => h (List.mem_cons_of_mem c hm)
    simp only [splitOnCharL, if_neg hc, ih hcs]

/-- Splitting around the unique separator occurrence yields the two parts. -/
theorem splitOnCharL_sep_append (sep : Char) (before after : List Char)
    (hb : sep ∉ before) (ha : sep ∉ after) :
    splitOnCharL sep (before ++ sep :: after) = [before, after] := by
  induction before with
  | nil => simp [splitOnCharL, splitOnCharL_not_mem sep after ha]
  | cons b bs ih =>
    have hbne : ¬ b = sep := fun he => hb (he ▸ List.mem_cons_self b bs)
    have hbs : sep ∉ bs := fun hm => hb (List.mem_cons_of_mem b hm)
    simp only [List.cons_append, splitOnCharL, if_neg hbne, List.append_eq, ih hbs]

/-- Dropping everything before the first colon. -/
theorem dropWhile_until_colon (before after : List Char) (hb : (':' : Char) ∉ before) :
    (before ++ ':' :: after).dropWhile (fun c => c != ':') = ':' :: after := by
  induction before with
  | nil => simp [List.dropWhile]
  | cons b bs ih =>
    have hbne : b ≠ ':' := fun he => hb (he ▸ List.mem_cons_self b bs)
    have hbs : (':' : Char) ∉ bs := fun hm => hb (List.mem_cons_of_mem b hm)
    have ht : (b != ':') = true := by simp [bne_iff_ne]; exact hbne
    simp only [List.cons_append, List.dropWhile, ht]
    exact ih hbs

/-- An `hf env` whose cache value itself contains a colon. -/
def runC7 : Env := fun c =>
  if c = "hf env" then ⟨"HF_HUB_CACHE: /tmp/a:b\n", "", 0⟩ else ⟨"", "", 1⟩

/-- Counterexample to claim C7 as stated: on the line
`HF_HUB_CACHE: /tmp/a:b` the code takes `split(':')[1]` — the segment between
the first and the second colon — and returns `/tmp/a`, while the entire
remainder of the line after the first colon, trimmed, is `/tmp/a:b`. -/
theorem getHfCacheDir_colon_value_counterexample :
    findCacheLine (runC7 "hf env").stdout = some "HF_HUB_CACHE: /tmp/a:b" ∧
    (getHfCacheDir runC7 initialResolverState).1 = .ok "/tmp/a" ∧
    specValueAfterFirstColon "HF_HUB_CACHE: /tmp/a:b" = "/tmp/a:b" ∧
    ("/tmp/a" : String) ≠ "/tmp/a:b" := by
  decide

/-- Claim C7 amended: for `hf env` output whose matched HF_HUB_CACHE line has
the shape `before ++ ":" ++ after` with no colon in `before` or `after`, the
resolver returns the remainder after the first colon, trimmed (in general the
code returns `split(':')[1]`, the segment truncated at the NEXT colon, so the
claim holds exactly when the remainder contains no further colon). -/
theorem getHfCacheDir_value_after_first_colon (run : Env) (before after : List Char)
    (h0 : ¬ (run "hf env").exitCode ≠ 0)
    (h1 : findCacheLine (run "hf env").stdout = some ⟨before ++ ':' :: after⟩)
    (hb : (':' : Char) ∉ before) (ha : (':' : Char) ∉ after) :
    (getHfCacheDir run initialResolverState).1 =
      .ok (specValueAfterFirstColon ⟨before ++ ':' :: after⟩) ∧
    specValueAfterFirstColon ⟨before ++ ':' :: after⟩ = jsTrim ⟨after⟩ := by
  have hspec : specValueAfterFirstColon ⟨before ++ ':' :: after⟩ = jsTrim ⟨after⟩ := by
    simp only [specValueAfterFirstColon]
    have : (⟨before ++ ':' :: after⟩ : String).toList = before ++ ':' :: after := rfl
    rw [this, dropWhile_until_colon before after hb, List.drop_one, List.tail_cons]
  refine ⟨?_, hspec⟩
  rw [hspec]
  unfold getHfCacheDir
  simp only [initialResolverState]
  rw [if_neg h0, h1]
  have hsplit : jsSplit ⟨before ++ ':' :: after⟩ ':' = [⟨before⟩, ⟨after⟩] := by
    simp only [jsSplit]
    have heq : (⟨before ++ ':' :: after⟩ : String).toList = before ++ ':' :: after := rfl
    rw [heq, splitOnCharL_sep_append ':' before after hb ha]
    rfl
  simp [jsTruthyStr, hsplit]

/-- A colon-free cache path. -/
def runC7w : Env := fun c =>
  if c = "hf env" then ⟨"HF_HUB_CACHE: /tmp/hf\n", "", 0⟩ else ⟨"", "", 1⟩

/-- Witness for the amended C7 at a concrete environment. -/
theorem getHfCacheDir_value_after_first_colon_witness :
    (getHfCacheDir runC7w initialResolverState).1 =
      .ok (specValueAfterFirstColon ⟨"HF_HUB_CACHE".toList ++ ':' :: " /tmp/hf".toList⟩) ∧
    specValueAfterFirstColon ⟨"HF_HUB_CACHE".toList ++ ':' :: " /tmp/hf".toList⟩ =
      jsTrim ⟨" /tmp/hf".toList⟩ :=
  getHfCacheDir_value_after_first_colon runC7w "HF_HUB_CACHE".toList " /tmp/hf".toList
    (by decide) (by decide) (by decide) (by decide)

/-! ### Environment checks (src/unnamed/part_001)

Each check runs one or more commands through the Runner and produces a
`CheckResult`.  The literal command strings from the source are kept (`awk`
braces and quotes written with hex escapes). -/

structure CheckResult where
  success : Bool
  name : String
  messages : List String
deriving DecidableEq, Repr

/-- `checkDocker`. -/
def checkDocker (run : Env) : CheckResult :=
  if (run "which docker").exitCode ≠ 0 then
    { success := false, name := "Docker",
      messages :=
        ["Error: docker is not installed or not in PATH. Install it with:",
         "curl -fsSL https://get.docker.com | sh\n",
         "And add your user to the docker group:",
         "sudo usermod -aG docker $USER\n"] }
  else
    { success := true, name := "Docker", messages := ["  docker found"] }

/-- `checkNvidiaSmi`. -/
def checkNvidiaSmi (run : Env) : CheckResult :=
  if (run "which nvidia-smi").exitCode ≠ 0 then
    { success := false, name := "NVIDIA Drivers",
      messages :=
        ["Error: nvidia-smi is not installed or not in PATH",
         "Note: NVIDIA GPU and drivers are required for this setup"] }
  else
    { success := true, name := "NVIDIA Drivers", messages := ["  nvidia-smi found"] }

/-- `checkHuggingFaceCli`: on failure, probes the four package managers in
priority order (brew, pipx, pip3, pip) and appends the matching install
suggestion, falling back to the Homebrew bootstrap suggestion. -/
def checkHuggingFaceCli (run : Env) : CheckResult :=
  if (run "which hf").exitCode ≠ 0 then
    { success := false, name := "Hugging Face CLI",
      messages :=
        "Error: Hugging Face CLI (hf) is not installed or not in PATH. Install it with:" ::
        (if (run "which brew").exitCode = 0 then
          ["  brew install huggingface-cli"]
        else if (run "which pipx").exitCode = 0 then
          ["  pipx install huggingface_hub[cli]"]
        else if (run "which pip3").exitCode = 0 then
          ["  pip3 install huggingface_hub[cli]"]
        else if (run "which pip").exitCode = 0 then
          ["  pip install huggingface_hub[cli]"]
        else
          ["  No package manager found. Recommended: install Homebrew with:",
           "  /bin/bash -c \"$(curl -fsSL https://raw.githubusercontent.com/Homebrew/install/HEAD/install.sh)\"",
           "  Then run: brew install huggingface-cli"]) }
  else
    { success := true, name := "Hugging Face CLI", messages := ["  hf found"] }

/-- JS `a < b` where `a` may be `NaN` (`none`): every comparison with `NaN`
is false. -/
def jsLtNaN (a : Option Int) (b : Int) : Bool :=
  match a with
  | none => false
  | some x => x < b

/-- The exact CUDA query pipeline string. -/
def cudaQueryCmd : String :=
  "nvidia-smi | grep \x27CUDA\x27 | awk \x27\x7bprint $9\x7d\x27"

/-- The integer major the code computes:
`parseInt(result.stdout.trim().split('.')[0])`. -/
def cudaMajor (stdout : String) : Option Int :=
  jsParseInt ((jsSplit (jsTrim stdout) '.').getD 0 "")

/-- `checkCuda`: fails when `major < 13` — a `NaN` major makes that
comparison false, taking the success branch. -/
def checkCuda (result : RunResult) : CheckResult :=
  if result.exitCode ≠ 0 then
    { success := false, name := "CUDA", messages := ["Error: Failed to query CUDA"] }
  else
    if jsLtNaN (cudaMajor result.stdout) 13 then
      { success := false, name := "CUDA",
        messages := ["Error: CUDA 13.1+ required, found: " ++ jsTrim result.stdout] }
    else
      { success := true, name := "CUDA",
        messages := ["  CUDA " ++ jsTrim result.stdout ++ " found"] }

/-- `checkCuda` applied through the Runner environment. -/
def checkCudaRun (run : Env) : CheckResult :=
  checkCuda (run cudaQueryCmd)

/-- The install stage of `checkEnvironment`: the three tool checks awaited
together. -/
def installChecks (run : Env) : List CheckResult :=
  [checkDocker run, checkNvidiaSmi run, checkHuggingFaceCli run]

/-- `installChecks.every(r => r.success)`. -/
def installsOk (run : Env) : Bool :=
  (installChecks run).all (fun r => r.success)

/-- The names of the failed checks. -/
def installFailedNames (run : Env) : List String :=
  ((installChecks run).filter (fun r => !r.success)).map (fun r => r.name)

/-- The failure messages surfaced by the stage: every message of every
failed check, in order (the stage loops over all results and prints each
failed check's messages with `console.error`). -/
def installFailureMessages (run : Env) : List String :=
  ((installChecks run).filter (fun r => !r.success)).flatMap (fun r => r.messages)

/-! ### Claims C6 and C9: the CUDA toolkit check -/

/-- Claim C6, divergence witness: on empty or unparseable version output
(pipeline exit code 0, no parseable number) `checkCuda` reports SUCCESS —
JS `parseInt` yields `NaN` and `NaN < 13` is false — while the claim and the
spec require such input to fail the check.  The parseable cases of the claim
do hold: `"13.1"` succeeds and `"12.4"` fails. -/
theorem checkCuda_unparseable_reports_success :
    (checkCuda ⟨"", "", 0⟩).success = true ∧
    (checkCuda ⟨"N/A", "", 0⟩).success = true ∧
    (checkCuda ⟨"13.1", "", 0⟩).success = true ∧
    (checkCuda ⟨"12.4", "", 0⟩).success = false := by
  decide

/-- Claim C9: the check compares only the integer major version against 13 —
`"13.0"` passes — and its decision depends only on the parsed major, never on
the minor; yet the failure message advertises `CUDA 13.1+ required`. -/
theorem checkCuda_major_only :
    (checkCuda ⟨"13.0", "", 0⟩).success = true ∧
    (∀ r₁ r₂ : RunResult, r₁.exitCode = 0 → r₂.exitCode = 0 →
      cudaMajor r₁.stdout = cudaMajor r₂.stdout →
      (checkCuda r₁).success = (checkCuda r₂).success) ∧
    (∃ m ∈ (checkCuda ⟨"12.4", "", 0⟩).messages, jsIncludes m "CUDA 13.1+ required" = true) := by
  refine ⟨by decide, ?_, by decide⟩
  intro r₁ r₂ h1 h2 hm
  unfold checkCuda
  rw [if_neg (show ¬ r₁.exitCode ≠ 0 from fun hne => hne h1)]
  rw [if_neg (show ¬ r₂.exitCode ≠ 0 from fun hne => hne h2)]
  rw [hm]
  by_cases hc : jsLtNaN (cudaMajor r₂.stdout) 13 = true
  · rw [if_pos hc, if_pos hc]
  · rw [if_neg hc, if_neg hc]

/-- Witness for the quantified part of C9: `"13.0"` and `"13.9"` have the
same major, hence the same verdict. -/
theorem checkCuda_major_only_witness :
    (checkCuda ⟨"13.0", "", 0⟩).success = (checkCuda ⟨"13.9", "", 0⟩).success :=
  checkCuda_major_only.2.1 ⟨"13.0", "", 0⟩ ⟨"13.9", "", 0⟩ rfl rfl (by decide)

/-! ### Claim C8: the tool stage aggregates all three checks -/

/-- The install-suggestion tail of a failed Hugging Face CLI check. -/
def hfSuggestions (run : Env) : List String :=
  if (run "which brew").exitCode = 0 then
    ["  brew install huggingface-cli"]
  else if (run "which pipx").exitCode = 0 then
    ["  pipx install huggingface_hub[cli]"]
  else if (run "which pip3").exitCode = 0 then
    ["  pip3 install huggingface_hub[cli]"]
  else if (run "which pip").exitCode = 0 then
    ["  pip install huggingface_hub[cli]"]
  else
    ["  No package manager found. Recommended: install Homebrew with:",
     "  /bin/bash -c \"$(curl -fsSL https://raw.githubusercontent.com/Homebrew/install/HEAD/install.sh)\"",
     "  Then run: brew install huggingface-cli"]

theorem checkHuggingFaceCli_eq (run : Env) :
    checkHuggingFaceCli run =
      if (run "which hf").exitCode ≠ 0 then
        ⟨false, "Hugging Face CLI",
          "Error: Hugging Face CLI (hf) is not installed or not in PATH. Install it with:" ::
            hfSuggestions run⟩
      else
        ⟨true, "Hugging Face CLI", ["  hf found"]⟩ := by
  rfl

theorem checkDocker_ok (run : Env) (h : (run "which docker").exitCode = 0) :
    checkDocker run = ⟨true, "Docker", ["  docker found"]⟩ := by
  simp [checkDocker, h]

theorem checkDocker_fail (run : Env) (h : (run "which docker").exitCode ≠ 0) :
    checkDocker run =
      ⟨false, "Docker",
        ["Error: docker is not installed or not in PATH. Install it with:",
         "curl -fsSL https://get.docker.com | sh\n",
         "And add your user to the docker group:",
         "sudo usermod -aG docker $USER\n"]⟩ := by
  simp [checkDocker, h]

theorem checkNvidiaSmi_ok (run : Env) (h : (run "which nvidia-smi").exitCode = 0) :
    checkNvidiaSmi run = ⟨true, "NVIDIA Drivers", ["  nvidia-smi found"]⟩ := by
  simp [checkNvidiaSmi, h]

theorem checkNvidiaSmi_fail (run : Env) (h : (run "which nvidia-smi").exitCode ≠ 0) :
    checkNvidiaSmi run =
      ⟨false, "NVIDIA Drivers",
        ["Error: nvidia-smi is not installed or not in PATH",
         "Note: NVIDIA GPU and drivers are required for this setup"]⟩ := by
  simp [checkNvidiaSmi, h]

theorem checkHuggingFaceCli_ok (run : Env) (h : (run "which hf").exitCode = 0) :
    checkHuggingFaceCli run = ⟨true, "Hugging Face CLI", ["  hf found"]⟩ := by
  rw [checkHuggingFaceCli_eq]
  simp [h]

theorem checkHuggingFaceCli_fail (run : Env) (h : (run "which hf").exitCode ≠ 0) :
    checkHuggingFaceCli run =
      ⟨false, "Hugging Face CLI",
        "Error: Hugging Face CLI (hf) is not installed or not in PATH. Install it with:" ::
          hfSuggestions run⟩ := by
  rw [checkHuggingFaceCli_eq]
  simp [h]

/-- Every possible failure message of the Hugging Face CLI check mentions
neither `docker` nor `nvidia-smi`. -/
theorem hf_messages_clean (run : Env) :
    ∀ m ∈ "Error: Hugging Face CLI (hf) is not installed or not in PATH. Install it with:" ::
        hfSuggestions run,
      jsIncludes m "docker" = false ∧ jsIncludes m "nvidia-smi" = false := by
  unfold hfSuggestions
  by_cases hb : (run "which brew").exitCode = 0
  · simp only [if_pos hb]
    decide
  · rw [if_neg hb]
    by_cases hx : (run "which pipx").exitCode = 0
    · simp only [if_pos hx]
      decide
    · rw [if_neg hx]
      by_cases h3 : (run "which pip3").exitCode = 0
      · simp only [if_pos h3]
        decide
      · rw [if_neg h3]
        by_cases hp : (run "which pip").exitCode = 0
        · simp only [if_pos hp]
          decide
        · rw [if_neg hp]
          decide

/-- Claim C8: when all three tools resolve, the stage aggregates to success;
when exactly one is missing, all three checks are still present in the
awaited result list, the stage fails, the surfaced failure message set is
exactly the messages of the one failed check (all surfaced together), some
failure message names the missing tool, and no failure message names either
of the other two tools. -/
theorem toolStage_aggregation (run : Env) :
    ((run "which docker").exitCode = 0 → (run "which nvidia-smi").exitCode = 0 →
      (run "which hf").exitCode = 0 → installsOk run = true) ∧
    ((run "which docker").exitCode ≠ 0 → (run "which nvidia-smi").exitCode = 0 →
      (run "which hf").exitCode = 0 →
      (installChecks run).length = 3 ∧ installsOk run = false ∧
      installFailedNames run = ["Docker"] ∧
      installFailureMessages run = (checkDocker run).messages ∧
      (∃ m ∈ installFailureMessages run, jsIncludes m "docker" = true) ∧
      (∀ m ∈ installFailureMessages run,
        jsIncludes m "nvidia-smi" = false ∧ jsIncludes m "hf" = false)) ∧
    ((run "which docker").exitCode = 0 → (run "which nvidia-smi").exitCode ≠ 0 →
      (run "which hf").exitCode = 0 →
      (installChecks run).length = 3 ∧ installsOk run = false ∧
      installFailedNames run = ["NVIDIA Drivers"] ∧
      installFailureMessages run = (checkNvidiaSmi run).messages ∧
      (∃ m ∈ installFailureMessages run, jsIncludes m "nvidia-smi" = true) ∧
      (∀ m ∈ installFailureMessages run,
        jsIncludes m "docker" = false ∧ jsIncludes m "hf" = false)) ∧
    ((run "which docker").exitCode = 0 → (run "which nvidia-smi").exitCode = 0 →
      (run "which hf").exitCode ≠ 0 →
      (installChecks run).length = 3 ∧ installsOk run = false ∧
      installFailedNames run = ["Hugging Face CLI"] ∧
      installFailureMessages run = (checkHuggingFaceCli run).messages ∧
      (∃ m ∈ installFailureMessages run, jsIncludes m "hf" = true) ∧
      (∀ m ∈ installFailureMessages run,
        jsIncludes m "docker" = false ∧ jsIncludes m "nvidia-smi" = false)) := by
  refine ⟨?_, ?_, ?_, ?_⟩
  · intro hd hn hh
    simp [installsOk, installChecks,
      checkDocker_ok run hd, checkNvidiaSmi_ok run hn, checkHuggingFaceCli_ok run hh]
  · intro hd hn hh
    simp only [installsOk, installChecks, installFailedNames, installFailureMessages,
      checkDocker_fail run hd, checkNvidiaSmi_ok run hn, checkHuggingFaceCli_ok run hh]
    decide
  · intro hd hn hh
    simp only [installsOk, installChecks, installFailedNames, installFailureMessages,
      checkDocker_ok run hd, checkNvidiaSmi_fail run hn, checkHuggingFaceCli_ok run hh]
    decide
  · intro hd hn hh
    simp only [installsOk, installChecks, installFailedNames, installFailureMessages,
      checkDocker_ok run hd, checkNvidiaSmi_ok run hn, checkHuggingFaceCli_fail run hh]
    refine ⟨rfl, rfl, rfl, by simp, ?_, ?_⟩
    · refine ⟨"Error: Hugging Face CLI (hf) is not installed or not in PATH. Install it with:",
        ?_, by decide⟩
      simp
    · intro m hm
      exact hf_messages_clean run m (by simpa using hm)

/-- A host with every probed binary on PATH. -/
def runAllTools : Env := fun _ => ⟨"", "", 0⟩

/-- A host where only `which docker` fails. -/
def runNoDocker : Env := fun c =>
  if c = "which docker" then ⟨"", "", 1⟩ else ⟨"", "", 0⟩

/-- Witness for C8 at two concrete environments: all tools present, and
exactly docker missing. -/
theorem toolStage_aggregation_witness :
    installsOk runAllTools = true ∧
    installsOk runNoDocker = false ∧
    installFailedNames runNoDocker = ["Docker"] := by
  refine ⟨(toolStage_aggregation runAllTools).1 rfl rfl rfl, ?_, ?_⟩
  · exact ((toolStage_aggregation runNoDocker).2.1 (by decide) (by decide) (by decide)).2.1
  · exact ((toolStage_aggregation runNoDocker).2.1 (by decide) (by decide) (by decide)).2.2.1

/-! ### The asset reconciler (src/codebase-indexing/src/upsertTokenizer.ts)

The reconciler only ever issues two kinds of shell commands: existence probes
`[ -f "path" ] && echo "exists"` and copies `cp "src" "dst"` (never any
delete).  The embedding returns, alongside the source's control flow, the
ordered list of issued command strings and the list of filenames actually
passed to `cp`, so frame claims can be stated.  File contents are never read
by the source, so "regardless of whether the source asset differs" is
reflected by the model not consulting contents at all. -/

def TOKENIZER_FILES : List String :=
  ["tokenizer.json", "added_tokens.json", "special_tokens_map.json", "tokenizer_config.json"]

/-- The exact file-existence probe string. -/
def probeCmd (filePath : String) : String :=
  "[ -f \"" ++ filePath ++ "\" ] && echo \"exists\""

/-- The exact copy command string. -/
def cpCmd (sourcePath destPath : String) : String :=
  "cp \"" ++ sourcePath ++ "\" \"" ++ destPath ++ "\""

/-- The probe plus the check
`result.exitCode === 0 && result.stdout.includes('exists')`. -/
def fileExistsProbe (run : Env) (filePath : String) : Bool :=
  (run (probeCmd filePath)).exitCode == 0 && jsIncludes (run (probeCmd filePath)).stdout "exists"

/-- `getMissingFiles`: probes all four tokenizer files in the snapshot
directory and keeps those whose probe failed. -/
def getMissingFiles (run : Env) (snapshotDir : String) : List String :=
  ((TOKENIZER_FILES.map
      (fun filename => (filename, fileExistsProbe run (snapshotDir ++ "/" ++ filename)))).filter
    (fun check => !check.2)).map (fun check => check.1)

/-- The loop body of `copyTokenizerFiles`: per missing file, probe the source
asset; skip (warning) when absent, otherwise issue the `cp`.  Returns the
issued commands and the filenames passed to `cp`. -/
def copyLoop (run : Env) (snapshotDir assetsPath : String) :
    List String → List String × List String
  | [] => ([], [])
  | filename :: rest =>
    let sourcePath := assetsPath ++ "/" ++ filename
    let destPath := snapshotDir ++ "/" ++ filename
    let tail := copyLoop run snapshotDir assetsPath rest
    if (run (probeCmd sourcePath)).exitCode ≠ 0 ∨
        ¬ jsIncludes (run (probeCmd sourcePath)).stdout "exists" then
      (probeCmd sourcePath :: tail.1, tail.2)
    else
      (probeCmd sourcePath :: cpCmd sourcePath destPath :: tail.1, filename :: tail.2)

/-- `copyTokenizerFiles`: test mode short-circuits before any command. -/
def copyTokenizerFiles (run : Env) (testMode : Bool) (snapshotDir assetsPath : String)
    (files : List String) : List String × List String :=
  if testMode then ([], [])
  else copyLoop run snapshotDir assetsPath files

/-- The body of `upsertTokenizer` once the snapshot directory is resolved
(`getModelSnapshot` precedes this and issues only read-only probes; see the
resolver embedding).  Returns (success, issued commands, filenames copied) —
the source reports success in every branch here because per-file copy
failures are logged and skipped, never rethrown. -/
def upsertTokenizerCore (run : Env) (testMode : Bool) (snapshotDir assetsPath : String) :
    Bool × List String × List String :=
  let missingFiles := getMissingFiles run snapshotDir
  let probes := TOKENIZER_FILES.map (fun f => probeCmd (snapshotDir ++ "/" ++ f))
  if missingFiles.isEmpty then
    (true, probes, [])
  else
    (true, probes ++ (copyTokenizerFiles run testMode snapshotDir assetsPath missingFiles).1,
      (copyTokenizerFiles run testMode snapshotDir assetsPath missingFiles).2)

/-- The filenames handed to `cp` are among the files given to the loop. -/
theorem copyLoop_copied_subset (run : Env) (snapshotDir assetsPath : String)
    (files : List String) :
    ∀ f ∈ (copyLoop run snapshotDir assetsPath files).2, f ∈ files := by
  induction files with
  | nil => intro f hf; cases hf
  | cons x rest ih =>
    intro f hf
    simp only [copyLoop] at hf
    split at hf
    · exact List.mem_cons_of_mem x (ih f hf)
    · rcases List.mem_cons.mp hf with h | h
      · exact h ▸ List.mem_cons_self x rest
      · exact List.mem_cons_of_mem x (ih f h)

/-- Every command the copy loop issues is a probe or a copy. -/
theorem copyLoop_cmd_shape (run : Env) (snapshotDir assetsPath : String)
    (files : List String) :
    ∀ c ∈ (copyLoop run snapshotDir assetsPath files).1,
      (∃ p, c = probeCmd p) ∨ ∃ s d, c = cpCmd s d := by
  induction files with
  | nil => intro c hc; cases hc
  | cons x rest ih =>
    intro c hc
    simp only [copyLoop] at hc
    split at hc
    · rcases List.mem_cons.mp hc with h | h
      · exact Or.inl ⟨assetsPath ++ "/" ++ x, h⟩
      · exact ih c h
    · rcases List.mem_cons.mp hc with h | h
      · exact Or.inl ⟨assetsPath ++ "/" ++ x, h⟩
      · rcases List.mem_cons.mp h with h2 | h2
        · exact Or.inr ⟨assetsPath ++ "/" ++ x, snapshotDir ++ "/" ++ x, h2⟩
        · exact ih c h2

/-- A file reported missing really failed its destination probe. -/
theorem mem_getMissingFiles (run : Env) (snapshotDir f : String)
    (hf : f ∈ getMissingFiles run snapshotDir) :
    fileExistsProbe run (snapshotDir ++ "/" ++ f) = false := by
  simp only [getMissingFiles, List.mem_map, List.mem_filter] at hf
  obtain ⟨⟨g, b⟩, ⟨⟨g', _, heq⟩, hb⟩, rfl⟩ := hf
  obtain ⟨rfl, rfl⟩ := Prod.mk.injEq .. ▸ heq
  simpa using hb

/-- When every destination probe succeeds, nothing is reported missing. -/
theorem getMissingFiles_nil (run : Env) (snapshotDir : String)
    (h : ∀ g ∈ TOKENIZER_FILES, fileExistsProbe run (snapshotDir ++ "/" ++ g) = true) :
    getMissingFiles run snapshotDir = [] := by
  unfold getMissingFiles
  rw [List.filter_eq_nil_iff.mpr, List.map_nil]
  intro pair hpair
  simp only [List.mem_map] at hpair
  obtain ⟨g, hg, rfl⟩ := hpair
  simp [h g hg]

/-- Claim C5: reconciliation is additive-only.  (a) A file whose destination
probe succeeded is never passed to `cp`.  (b) When all four files are
present, the issued commands are exactly the four read-only probes — no
filesystem mutation — nothing is copied, and the reconciler reports success.
(c) Every issued command is an existence probe or a copy; no delete is ever
issued. -/
theorem upsertTokenizer_additive_only (run : Env) (testMode : Bool)
    (snapshotDir assetsPath f : String) :
    (f ∈ TOKENIZER_FILES → fileExistsProbe run (snapshotDir ++ "/" ++ f) = true →
      f ∉ (upsertTokenizerCore run testMode snapshotDir assetsPath).2.2) ∧
    ((∀ g ∈ TOKENIZER_FILES, fileExistsProbe run (snapshotDir ++ "/" ++ g) = true) →
      (upsertTokenizerCore run testMode snapshotDir assetsPath).2.1 =
        TOKENIZER_FILES.map (fun g => probeCmd (snapshotDir ++ "/" ++ g)) ∧
      (upsertTokenizerCore run testMode snapshotDir assetsPath).2.2 = [] ∧
      (upsertTokenizerCore run testMode snapshotDir assetsPath).1 = true) ∧
    (∀ c ∈ (upsertTokenizerCore run testMode snapshotDir assetsPath).2.1,
      (∃ p, c = probeCmd p) ∨ ∃ s d, c = cpCmd s d) := by
  refine ⟨?_, ?_, ?_⟩
  · intro _ hprobe hcopied
    simp only [upsertTokenizerCore] at hcopied
    split at hcopied
    · cases hcopied
    · have hmem : f ∈ getMissingFiles run snapshotDir := by
        unfold copyTokenizerFiles at hcopied
        split at hcopied
        · cases hcopied
        · exact copyLoop_copied_subset run snapshotDir assetsPath _ f hcopied
      rw [mem_getMissingFiles run snapshotDir f hmem] at hprobe
      cases hprobe
  · intro hall
    have hnil := getMissingFiles_nil run snapshotDir hall
    unfold upsertTokenizerCore
    rw [hnil]
    exact ⟨rfl, rfl, rfl⟩
  · intro c hc
    simp only [upsertTokenizerCore] at hc
    split at hc
    · simp only [List.mem_map] at hc
      obtain ⟨g, _, rfl⟩ := hc
      exact Or.inl ⟨snapshotDir ++ "/" ++ g, rfl⟩
    · rcases List.mem_append.mp hc with h | h
      · simp only [List.mem_map] at h
        obtain ⟨g, _, rfl⟩ := h
        exact Or.inl ⟨snapshotDir ++ "/" ++ g, rfl⟩
      · unfold copyTokenizerFiles at h
        split at h
        · cases h
        · exact copyLoop_cmd_shape run snapshotDir assetsPath _ c h

/-- A host on which every existence probe succeeds. -/
def runC5w : Env := fun _ => ⟨"exists\n", "", 0⟩

/-- Witness for C5: with all four files present, reconciliation issues
exactly the four probes, copies nothing, and succeeds. -/
theorem upsertTokenizer_additive_only_witness :
    "tokenizer.json" ∉ (upsertTokenizerCore runC5w false "/snap" "./assets").2.2 ∧
    (upsertTokenizerCore runC5w false "/snap" "./assets").2.1 =
      TOKENIZER_FILES.map (fun g => probeCmd ("/snap" ++ "/" ++ g)) ∧
    (upsertTokenizerCore runC5w false "/snap" "./assets").2.2 = [] ∧
    (upsertTokenizerCore runC5w false "/snap" "./assets").1 = true := by
  have h := upsertTokenizer_additive_only runC5w false "/snap" "./assets" "tokenizer.json"
  exact ⟨h.1 (by decide) (by decide), h.2.1 (by decide)⟩

/-! ### Claim C10: collection selection in the search client (src/unnamed/part_003) -/

/-- JS `details[i]?.name` where `i` is the possibly-NaN result of `parseInt`:
a NaN (`none`), negative or out-of-range index reads `undefined` from the
array, and the optional chain maps `undefined` to `undefined` instead of
throwing a TypeError. -/
def jsArrayGet (names : List String) : Option Int → Option String
  | some (Int.ofNat n) => names.get? n
  | _ => none

/-- The collection-selection step of the search client REPL:
`collectionIndex = await getUserInput(...) || '0'` followed by
`activeCollectionName = details[parseInt(collectionIndex, 10)]?.name`, with
`input` the already-trimmed user reply and `names` the collection names in
display order. -/
def activeCollectionName (input : String) (names : List String) : Option String :=
  jsArrayGet names (jsParseInt (jsOrStr input "0"))

/-- Claim C10: blank input defaults to index 0; non-numeric input
(`parseInt` = NaN) and out-of-range indices make the active collection name
`undefined`, with no error raised at selection time (the selection step is a
total function into an optional value). -/
theorem selectCollection_default_and_invalid (input : String) (names : List String) :
    (activeCollectionName "" names = names.get? 0) ∧
    (input ≠ "" → jsParseInt input = none → activeCollectionName input names = none) ∧
    (∀ n : Int, input ≠ "" → jsParseInt input = some n →
      (n < 0 ∨ (names.length : Int) ≤ n) → activeCollectionName input names = none) := by
  refine ⟨rfl, ?_, ?_⟩
  · intro hne hnan
    unfold activeCollectionName jsOrStr
    rw [if_neg hne, hnan]
    rfl
  · intro n hne hsome hrange
    unfold activeCollectionName jsOrStr
    rw [if_neg hne, hsome]
    cases n with
    | ofNat m =>
      have hc : Int.ofNat m = (m : Int) := rfl
      rcases hrange with h | h
      · rw [hc] at h
        exact absurd h (by omega)
      · rw [hc] at h
        show names.get? m = none
        rw [List.get?_eq_none]
        omega
    | negSucc m => rfl

/-- Witness for C10 at a concrete two-collection list: blank selects index 0,
`"abc"` and the out-of-range `"5"` both yield no active collection. -/
theorem selectCollection_default_and_invalid_witness :
    activeCollectionName "" ["col0", "col1"] = some "col0" ∧
    activeCollectionName "abc" ["col0", "col1"] = none ∧
    activeCollectionName "5" ["col0", "col1"] = none := by
  refine ⟨?_, ?_, ?_⟩
  · rw [(selectCollection_default_and_invalid "" ["col0", "col1"]).1]
    rfl
  · exact (selectCollection_default_and_invalid "abc" ["col0", "col1"]).2.1
      (by decide) (by decide)
  · exact (selectCollection_default_and_invalid "5" ["col0", "col1"]).2.2 5
      (by decide) (by decide) (by decide)
